import Mathlib

/-!
# Hades-Mailer: shallow embedding and verification

A shallow embedding of the two request handlers of `src/app.js`
(`router.post('/sendMail')`, the batch path, and
`router.post('/sendMail/:customEmail')`, the direct path), together with
theorems about the claims of the specification.

External collaborators (the axios registry call, the SendGrid `mail.send`,
the showdown markdown renderer, the qrcode encoder) are passed to the
handlers as oracle parameters, exactly where the JS code awaits them; the
`md5` library used for token derivation is embedded as the standard MD5
digest over the UTF-8 bytes of the input, since the handlers' token values
are `md5(email + eventName)`.

Each handler is embedded as a function from the request and the oracles to
the ordered list of observable events it produces (responses written to the
caller, encoder invocations, delivery attempts, an uncaught exception),
mirroring the JS control flow statement by statement.
-/

namespace HadesMailer

/-! ## MD5 (the `md5` npm package: RFC 1321 digest, lowercase hex)

Machine words are `Nat` reduced modulo `2^32` at every operation that can
overflow. -/

/-- 32-bit truncated addition. -/
def add32 (a b : Nat) : Nat := (a + b) % 4294967296

/-- Bitwise complement on 32-bit words. -/
def not32 (a : Nat) : Nat := Nat.xor (a % 4294967296) 4294967295

/-- Left rotation of a 32-bit word by `s` places. -/
def rotl32 (s a : Nat) : Nat :=
  (a % 4294967296) / 2 ^ (32 - s % 32) + (a * 2 ^ (s % 32)) % 4294967296 % 4294967296

/-- The 64 MD5 sine-derived constants `K[i] = floor(2^32 * |sin(i+1)|)`. -/
def md5K : List Nat :=
  [0xd76aa478, 0xe8c7b756, 0x242070db, 0xc1bdceee,
   0xf57c0faf, 0x4787c62a, 0xa8304613, 0xfd469501,
   0x698098d8, 0x8b44f7af, 0xffff5bb1, 0x895cd7be,
   0x6b901122, 0xfd987193, 0xa679438e, 0x49b40821,
   0xf61e2562, 0xc040b340, 0x265e5a51, 0xe9b6c7aa,
   0xd62f105d, 0x02441453, 0xd8a1e681, 0xe7d3fbc8,
   0x21e1cde6, 0xc33707d6, 0xf4d50d87, 0x455a14ed,
   0xa9e3e905, 0xfcefa3f8, 0x676f02d9, 0x8d2a4c8a,
   0xfffa3942, 0x8771f681, 0x6d9d6122, 0xfde5380c,
   0xa4beea44, 0x4bdecfa9, 0xf6bb4b60, 0xbebfbc70,
   0x289b7ec6, 0xeaa127fa, 0xd4ef3085, 0x04881d05,
   0xd9d4d039, 0xe6db99e5, 0x1fa27cf8, 0xc4ac5665,
   0xf4292244, 0x432aff97, 0xab9423a7, 0xfc93a039,
   0x655b59c3, 0x8f0ccc92, 0xffeff47d, 0x85845dd1,
   0x6fa87e4f, 0xfe2ce6e0, 0xa3014314, 0x4e0811a1,
   0xf7537e82, 0xbd3af235, 0x2ad7d2bb, 0xeb86d391]

/-- The 64 per-round left-rotation amounts. -/
def md5S : List Nat :=
  [7, 12, 17, 22, 7, 12, 17, 22, 7, 12, 17, 22, 7, 12, 17, 22,
   5, 9, 14, 20, 5, 9, 14, 20, 5, 9, 14, 20, 5, 9, 14, 20,
   4, 11, 16, 23, 4, 11, 16, 23, 4, 11, 16, 23, 4, 11, 16, 23,
   6, 10, 15, 21, 6, 10, 15, 21, 6, 10, 15, 21, 6, 10, 15, 21]

/-- Running state of the MD5 compression function. -/
structure MD5State where
  a : Nat
  b : Nat
  c : Nat
  d : Nat
deriving Repr, DecidableEq

/-- One of the 64 rounds of the MD5 compression function; `m j` is the
`j`-th little-endian 32-bit word of the current 64-byte chunk. -/
def md5Step (m : Nat → Nat) (st : MD5State) (i : Nat) : MD5State :=
  let fg : Nat × Nat :=
    if i < 16 then
      (Nat.lor (Nat.land st.b st.c) (Nat.land (not32 st.b) st.d), i)
    else if i < 32 then
      (Nat.lor (Nat.land st.d st.b) (Nat.land (not32 st.d) st.c), (5 * i + 1) % 16)
    else if i < 48 then
      (Nat.xor (Nat.xor st.b st.c) st.d, (3 * i + 5) % 16)
    else
      (Nat.xor st.c (Nat.lor st.b (not32 st.d)), (7 * i) % 16)
  let f := add32 (add32 (add32 fg.1 st.a) (md5K.getD i 0)) (m fg.2)
  ⟨st.d, add32 st.b (rotl32 (md5S.getD i 0) f), st.b, st.c⟩

/-- Process one 64-byte chunk. -/
def md5Chunk (st : MD5State) (chunk : List Nat) : MD5State :=
  let m : Nat → Nat := fun j =>
    chunk.getD (4 * j) 0 + 256 * chunk.getD (4 * j + 1) 0 +
      65536 * chunk.getD (4 * j + 2) 0 + 16777216 * chunk.getD (4 * j + 3) 0
  let r := (List.range 64).foldl (md5Step m) st
  ⟨add32 st.a r.a, add32 st.b r.b, add32 st.c r.c, add32 st.d r.d⟩

/-- MD5 padding: a `0x80` byte, zero bytes up to 56 mod 64, then the
original bit length as a 64-bit little-endian integer. -/
def md5Pad (msg : List Nat) : List Nat :=
  let bitLen := (8 * msg.length) % 2 ^ 64
  msg ++ [128] ++ List.replicate ((119 - msg.length % 64) % 64) 0 ++
    (List.range 8).map (fun i => bitLen / 2 ^ (8 * i) % 256)

/-- Split a byte list into 64-byte chunks. -/
def chunks64 (l : List Nat) : List (List Nat) :=
  if h : l = [] then [] else
    l.take 64 :: chunks64 (l.drop 64)
termination_by l.length
decreasing_by
  simp only [List.length_drop]
  have : 0 < l.length := List.length_pos.mpr h
  omega

/-- A lowercase hexadecimal digit. -/
def hexDigit (n : Nat) : Char :=
  if n < 10 then Char.ofNat (48 + n) else Char.ofNat (87 + n % 16)

/-- Two lowercase hex digits of a byte. -/
def byteHex (b : Nat) : String :=
  String.mk [hexDigit (b / 16 % 16), hexDigit (b % 16)]

/-- A 32-bit word as eight hex digits, little-endian byte order. -/
def wordLEHex (w : Nat) : String :=
  byteHex (w % 256) ++ byteHex (w / 256 % 256) ++
    byteHex (w / 65536 % 256) ++ byteHex (w / 16777216 % 256)

/-- The MD5 digest of a string (UTF-8 bytes), as 32 lowercase hex
characters — the behaviour of the `md5` npm package used by the source. -/
def md5hex (s : String) : String :=
  let bytes := s.toUTF8.toList.map UInt8.toNat
  let st := (chunks64 (md5Pad bytes)).foldl md5Chunk
    ⟨0x67452301, 0xefcdab89, 0x98badcfe, 0x10325476⟩
  wordLEHex st.a ++ wordLEHex st.b ++ wordLEHex st.c ++ wordLEHex st.d

/-! ## Data model -/

/-- One entry of the registry response list `response.rs` (app.js:199
reads `participant.email`). -/
structure Participant where
  email : String
deriving Repr, DecidableEq

/-- The registry response body: the handler reads only its `rs` list
(app.js:178, 187, 199). -/
structure Registry where
  rs : List Participant
deriving Repr, DecidableEq

/-- The validated `sendTo` field: `isIn(['absent', 'present', 'both'])`
(app.js:110). -/
inductive SendTo where
  | absent
  | present
  | both
deriving Repr, DecidableEq

/-- The validated `gender` field: `isIn(['male', 'female', 'both'])`
(app.js:111). -/
inductive Gender where
  | male
  | female
  | both
deriving Repr, DecidableEq

/-- A validated batch request body (app.js:123), plus the
`x-access-token` header (app.js:116). `specific` is destructured from the
body without validation, so it may be absent. -/
structure BatchRequest where
  eventName : String
  mailSubject : String
  mailBody : String
  sendTo : SendTo
  gender : Gender
  isMarkdown : Bool
  day : Int
  specific : Option String
  accessToken : String
deriving Repr, DecidableEq

/-- The single upstream registry call the batch handler issues: the axios
route path and the POST payload (app.js:134-141, 149-156, 164-170),
plus the Authorization header carrying the caller's token opaquely
(app.js:127). -/
structure UpstreamQuery where
  path : String
  auth : String
  event : String
  day : Option Int
  queryKey : String
  queryValue : String
  specific : Option String
deriving Repr, DecidableEq

/-- `gender === 'female' ? 'F' : 'M'` (app.js:139, 154, 168). -/
def genderValue : Gender → String
  | .female => "F"
  | _ => "M"

/-- The upstream query issued for a batch request, by the `switch (sendTo)`
at app.js:131: `absent` and `present` both post to
`simple-projection/project-absent` with `{event, day, query}`; `both`
posts to `simple-projection/project-all` and omits `day`. -/
def batchQuery (r : BatchRequest) : UpstreamQuery :=
  match r.sendTo with
  | .absent =>
      ⟨"simple-projection/project-absent", r.accessToken, r.eventName,
        some r.day, "gender", genderValue r.gender, r.specific⟩
  | .present =>
      ⟨"simple-projection/project-absent", r.accessToken, r.eventName,
        some r.day, "gender", genderValue r.gender, r.specific⟩
  | .both =>
      ⟨"simple-projection/project-all", r.accessToken, r.eventName,
        none, "gender", genderValue r.gender, r.specific⟩

/-- A SendGrid attachment object (app.js:206-211, 329-334). The JS field
`type` keeps its name. -/
structure Attachment where
  content : String
  filename : String
  type : String
  disposition : String
deriving Repr, DecidableEq

/-- A SendGrid message object (app.js:200-213, 323-336). The JS fields
`to` and `from` are not legal Lean identifiers and are rendered `toAddr`
and `fromAddr`. -/
structure Msg where
  toAddr : String
  fromAddr : String
  subject : String
  html : String
  attachments : List Attachment
deriving Repr, DecidableEq

/-- The observable events of one request, in program order: responses
written to the caller, QR-encoder invocations, SendGrid send attempts and
their outcomes, and an uncaught exception aborting the handler. -/
inductive Ev where
  | respondValidationFailed (fields : List String)
  | respondEmptyParticipants
  | respondBatchSuccess (participants : Nat)
  | respondDirectSuccess
  | respondMailNotSent (err : String)
  | qrEncodeCall (input : String)
  | sendCall (msg : Msg)
  | sendOk (rcpt : String)
  | sendErr (rcpt : String) (err : String)
  | uncaughtTypeError
deriving Repr, DecidableEq

/-! ## Shared pipeline pieces -/

/-- `md5(email + eventName)` — the token fed to the QR encoder at
app.js:193 (batch) and app.js:318 (direct). -/
def deriveToken (email eventName : String) : String :=
  md5hex (email ++ eventName)

/-- `code.replace(/^data:image\x2F(png|jpg);base64,/, "")` (app.js:207,
330): strip one anchored data-URI header, `png` or `jpg` variant, if
present. Both alternatives have 22 characters. -/
def stripImageDataUri (s : String) : String :=
  if s.startsWith "data:image/png;base64," then s.drop 22
  else if s.startsWith "data:image/jpg;base64," then s.drop 22
  else s

/-- The single attachment built from the (stripped) QR data-URI
(app.js:205-212, 328-335). -/
def qrAttachment (code : String) : Attachment :=
  ⟨stripImageDataUri code, "qrcode.png", "image/png", "attachment"⟩

/-- `isMarkdown ? converter.makeHtml(mailBody) : mailBody` (app.js:204,
327); `makeHtml` is the external showdown converter, passed as an
oracle. -/
def renderBody (makeHtml : String → String) (isMarkdown : Bool)
    (mailBody : String) : String :=
  if isMarkdown then makeHtml mailBody else mailBody

/-! ## Direct path: `router.post('/sendMail/:customEmail')` -/

/-- A direct-send request: the validated body fields (app.js:314) and the
`customEmail` path parameter (app.js:315). -/
structure DirectRequest where
  eventName : String
  mailSubject : String
  mailBody : String
  isMarkdown : Bool
  customEmail : String
deriving Repr, DecidableEq

/-- The field-level validation errors of a direct request, in validator
order (app.js:301-305): `eventName`, `mailSubject`, `mailBody` must be
non-empty, and `customEmail` must pass `isEmail()`. The `isEmail`
syntactic check lives in the external express-validator library and is an
oracle parameter; `isMarkdown` is already `Bool`-typed here, so its
`isBoolean()` check always passes. -/
def directValidationErrors (isEmail : String → Bool)
    (r : DirectRequest) : List String :=
  (if r.eventName = "" then ["eventName"] else []) ++
    (if r.mailSubject = "" then ["mailSubject"] else []) ++
    (if r.mailBody = "" then ["mailBody"] else []) ++
    (if isEmail r.customEmail then [] else ["customEmail"])

/-- The direct handler body (app.js:306-351). On validation failure it
responds 422 with the field errors and stops. Otherwise it QR-encodes
`md5(customEmail + eventName)`; on encoder failure the catch at
app.js:319-321 only logs, `code` stays `undefined`, and
`code.replace(...)` at app.js:330 throws an uncaught TypeError — the
handler aborts with no response. On encoder success it sends the message
and responds 200 `success` or 500 `MailNotSent` with the provider's
error. -/
def directRun (isEmail : String → Bool) (fromEmail : String)
    (makeHtml : String → String) (qrEnc : String → Except String String)
    (send : Msg → Except String Unit) (r : DirectRequest) : List Ev :=
  if directValidationErrors isEmail r ≠ [] then
    [.respondValidationFailed (directValidationErrors isEmail r)]
  else
    let token := deriveToken r.customEmail r.eventName
    match qrEnc token with
    | .error _ => [.qrEncodeCall token, .uncaughtTypeError]
    | .ok code =>
        let msg : Msg := ⟨r.customEmail, fromEmail, r.mailSubject,
          renderBody makeHtml r.isMarkdown r.mailBody, [qrAttachment code]⟩
        match send msg with
        | .ok _ => [.qrEncodeCall token, .sendCall msg, .respondDirectSuccess]
        | .error e => [.qrEncodeCall token, .sendCall msg, .respondMailNotSent e]

/-! ## Batch path: `router.post('/sendMail')` -/

/-- JS name resolution at app.js:193: the identifier `participant` has no
binding there — the only declaration is the loop-scoped
`const participant` of the `for...of` at app.js:199, not yet in scope —
so evaluating `participant.email` throws a ReferenceError before `md5` or
`qr.toDataURL` is ever invoked. -/
def participantInScopeAtLine193 : Option Participant := none

/-- The `code` derivation before the loop (app.js:191-196):
`code = await qr.toDataURL(md5(participant.email + eventName))` inside a
try whose catch only logs. Because `participant` is not in scope, the
argument evaluation throws, the catch swallows it, and `code` remains
`undefined` (`none`); were a participant in scope, the encoder would be
called on its token. Returns the resulting `code` and the events
produced. -/
def deriveCodeBeforeLoop (qrEnc : String → Except String String)
    (eventName : String) : Option String × List Ev :=
  match participantInScopeAtLine193 with
  | none => (none, [])
  | some p =>
      let token := deriveToken p.email eventName
      match qrEnc token with
      | .ok d => (some d, [.qrEncodeCall token])
      | .error _ => (none, [.qrEncodeCall token])

/-- The `for (const participant of response.rs)` loop (app.js:199-219).
Each iteration builds the message using the single pre-loop `code`; if
`code` is `undefined`, `code.replace(...)` at app.js:207 throws an
uncaught TypeError (the surrounding try covers only `mail.send`), which
aborts the whole handler. Delivery errors are caught and logged, and the
loop continues. -/
def batchLoop (fromEmail : String) (makeHtml : String → String)
    (send : Msg → Except String Unit) (r : BatchRequest)
    (code : Option String) : List Participant → List Ev
  | [] => []
  | p :: rest =>
    match code with
    | none => [.uncaughtTypeError]
    | some c =>
        let msg : Msg := ⟨p.email, fromEmail, r.mailSubject,
          renderBody makeHtml r.isMarkdown r.mailBody, [qrAttachment c]⟩
        (match send msg with
          | .ok _ => [.sendCall msg, .sendOk p.email]
          | .error e => [.sendCall msg, .sendErr p.email e]) ++
          batchLoop fromEmail makeHtml send r (some c) rest

/-- The batch handler body after validation (app.js:123-220). The one
upstream call is made per the `switch`; a thrown axios error (failure or
the 1000 ms timeout) is caught and only logged, leaving `response`
undefined (app.js:143-145, 158-160, 172-174). If `response` is undefined
or `response.rs` is empty, respond 500 `EmptyParticipants` and return
(app.js:178-182); otherwise respond 200 `success` with the participant
count (app.js:184-188) and continue into the code derivation and the
delivery loop. -/
def batchRun (fromEmail : String) (makeHtml : String → String)
    (upstream : UpstreamQuery → Except String Registry)
    (qrEnc : String → Except String String)
    (send : Msg → Except String Unit) (r : BatchRequest) : List Ev :=
  let response : Option Registry :=
    match upstream (batchQuery r) with
    | .ok reg => some reg
    | .error _ => none
  match response with
  | none => [.respondEmptyParticipants]
  | some reg =>
      if reg.rs.length = 0 then [.respondEmptyParticipants]
      else
        let cd := deriveCodeBeforeLoop qrEnc r.eventName
        .respondBatchSuccess reg.rs.length ::
          (cd.2 ++ batchLoop fromEmail makeHtml send r cd.1 reg.rs)

/-! ## Trace observations -/

/-- Whether an event is a response written to the caller. -/
def Ev.isRespond : Ev → Bool
  | .respondValidationFailed _ => true
  | .respondEmptyParticipants => true
  | .respondBatchSuccess _ => true
  | .respondDirectSuccess => true
  | .respondMailNotSent _ => true
  | _ => false

/-- The responses written to the caller, in order. -/
def responsesOf (t : List Ev) : List Ev := t.filter Ev.isRespond

/-- Whether an event is a delivery attempt (a `mail.send` call). -/
def Ev.isSendCall : Ev → Bool
  | .sendCall _ => true
  | _ => false

/-- The delivery attempts, in order. -/
def sendCallsOf (t : List Ev) : List Ev := t.filter Ev.isSendCall

/-- The inputs handed to the QR encoder, in order. -/
def qrInputsOf (t : List Ev) : List String :=
  t.filterMap fun e => match e with
    | .qrEncodeCall i => some i
    | _ => none

/-! ## Concrete instances used by closed theorems -/

/-- A trivial rendering oracle. -/
def idHtml : String → String := id

/-- A QR encoder oracle that always succeeds with a data-URI. -/
def okQr : String → Except String String :=
  fun t => Except.ok ("data:image/png;base64," ++ t)

/-- A delivery oracle that always succeeds. -/
def okSend : Msg → Except String Unit := fun _ => Except.ok ()

/-- A registry response with two participants. -/
def regAB : Registry := ⟨[⟨"a@x.com"⟩, ⟨"b@x.com"⟩]⟩

/-- A validated batch request. -/
def reqFest : BatchRequest :=
  ⟨"Fest", "subj", "body", SendTo.both, Gender.both, false, 2, none, "tok"⟩

/-- A validated direct request. -/
def reqDirect : DirectRequest := ⟨"Fest", "subj", "body", false, "solo@x.com"⟩

/-! ## Helper lemmas -/

/-- For a resolved non-empty audience, the batch handler's trace is the
success response followed by the uncaught TypeError from
`code.replace` on the `undefined` pre-loop `code`. -/
theorem batchRun_resolved_nonempty (fromEmail : String)
    (makeHtml : String → String)
    (upstream : UpstreamQuery → Except String Registry)
    (qrEnc : String → Except String String)
    (send : Msg → Except String Unit) (r : BatchRequest) (reg : Registry)
    (h : upstream (batchQuery r) = Except.ok reg) (hne : reg.rs ≠ []) :
    batchRun fromEmail makeHtml upstream qrEnc send r
      = [Ev.respondBatchSuccess reg.rs.length, Ev.uncaughtTypeError] := by
  obtain ⟨p, rest, hrs⟩ : ∃ p rest, reg.rs = p :: rest := by
    cases hrs : reg.rs with
    | nil => exact absurd hrs hne
    | cons p rest => exact ⟨p, rest, rfl⟩
  simp [batchRun, h, hrs, deriveCodeBeforeLoop, participantInScopeAtLine193,
    batchLoop]

/-- Unfolding of the direct handler on a request that passes validation. -/
theorem directRun_valid (isEmail : String → Bool) (fromEmail : String)
    (makeHtml : String → String) (qrEnc : String → Except String String)
    (send : Msg → Except String Unit) (r : DirectRequest)
    (hval : directValidationErrors isEmail r = []) :
    directRun isEmail fromEmail makeHtml qrEnc send r
      = (match qrEnc (deriveToken r.customEmail r.eventName) with
        | Except.error _ =>
            [Ev.qrEncodeCall (deriveToken r.customEmail r.eventName),
              Ev.uncaughtTypeError]
        | Except.ok code =>
            match send ⟨r.customEmail, fromEmail, r.mailSubject,
                renderBody makeHtml r.isMarkdown r.mailBody,
                [qrAttachment code]⟩ with
            | Except.ok _ =>
                [Ev.qrEncodeCall (deriveToken r.customEmail r.eventName),
                  Ev.sendCall ⟨r.customEmail, fromEmail, r.mailSubject,
                    renderBody makeHtml r.isMarkdown r.mailBody,
                    [qrAttachment code]⟩,
                  Ev.respondDirectSuccess]
            | Except.error e =>
                [Ev.qrEncodeCall (deriveToken r.customEmail r.eventName),
                  Ev.sendCall ⟨r.customEmail, fromEmail, r.mailSubject,
                    renderBody makeHtml r.isMarkdown r.mailBody,
                    [qrAttachment code]⟩,
                  Ev.respondMailNotSent e]) := by
  simp [directRun, hval]

/-- On a validated direct request the encoder is invoked exactly once, on
`deriveToken customEmail eventName`, whatever the oracles do. -/
theorem qrInputsOf_directRun_valid (isEmail : String → Bool)
    (fromEmail : String) (makeHtml : String → String)
    (qrEnc : String → Except String String)
    (send : Msg → Except String Unit) (r : DirectRequest)
    (hval : directValidationErrors isEmail r = []) :
    qrInputsOf (directRun isEmail fromEmail makeHtml qrEnc send r)
      = [deriveToken r.customEmail r.eventName] := by
  rw [directRun_valid isEmail fromEmail makeHtml qrEnc send r hval]
  cases qrEnc (deriveToken r.customEmail r.eventName) with
  | error e => rfl
  | ok code =>
      cases hs : send ⟨r.customEmail, fromEmail, r.mailSubject,
          renderBody makeHtml r.isMarkdown r.mailBody, [qrAttachment code]⟩ with
      | ok u => simp [qrInputsOf, hs]
      | error e => simp [qrInputsOf, hs]

/-! ## Claim theorems -/

/-- C1: the claim that in the batch path every resolved recipient's
OutboundMessage is constructed fresh with an attachment derived from that
recipient's own address fails on the code. With two resolved recipients,
a registry, encoder and delivery provider that all work, the handler
constructs no message at all: the single pre-loop credential derivation
(app.js:191-196) references the out-of-scope `participant` and leaves
`code` undefined, so the first loop iteration throws before any
`OutboundMessage` exists, and zero delivery attempts are made. -/
theorem batch_no_per_recipient_messages :
    batchRun "from@hades.io" idHtml (fun _ => Except.ok regAB) okQr okSend
        reqFest
        = [Ev.respondBatchSuccess 2, Ev.uncaughtTypeError] ∧
      sendCallsOf (batchRun "from@hades.io" idHtml (fun _ => Except.ok regAB)
        okQr okSend reqFest) = [] := by
  constructor <;> rfl

/-- C2: in the batch path the credential is derived once, before the
recipient loop, from `participant`, which is not in scope at app.js:193;
for every resolved non-empty audience the derivation therefore fails,
`code` stays undefined, and `code.replace` throws on the first recipient:
after the success response is sent, the encoder is never invoked and no
delivery to any recipient is ever attempted. -/
theorem batch_path_never_delivers (fromEmail : String)
    (makeHtml : String → String)
    (upstream : UpstreamQuery → Except String Registry)
    (qrEnc : String → Except String String)
    (send : Msg → Except String Unit) (r : BatchRequest) (reg : Registry)
    (h : upstream (batchQuery r) = Except.ok reg) (hne : reg.rs ≠ []) :
    batchRun fromEmail makeHtml upstream qrEnc send r
        = [Ev.respondBatchSuccess reg.rs.length, Ev.uncaughtTypeError] ∧
      qrInputsOf (batchRun fromEmail makeHtml upstream qrEnc send r) = [] ∧
      sendCallsOf (batchRun fromEmail makeHtml upstream qrEnc send r) = [] := by
  have hr := batchRun_resolved_nonempty fromEmail makeHtml upstream qrEnc
    send r reg h hne
  exact ⟨hr, by rw [hr]; rfl, by rw [hr]; rfl⟩

/-- Witness for C2: a concrete two-recipient audience. -/
theorem batch_path_never_delivers_witness :
    batchRun "f@h.io" idHtml (fun _ => Except.ok regAB) okQr okSend reqFest
        = [Ev.respondBatchSuccess regAB.rs.length, Ev.uncaughtTypeError] ∧
      qrInputsOf (batchRun "f@h.io" idHtml (fun _ => Except.ok regAB) okQr
        okSend reqFest) = [] ∧
      sendCallsOf (batchRun "f@h.io" idHtml (fun _ => Except.ok regAB) okQr
        okSend reqFest) = [] :=
  batch_path_never_delivers "f@h.io" idHtml (fun _ => Except.ok regAB) okQr
    okSend reqFest regAB rfl (by decide)

/-- C3: the claim that when credential encoding fails for exactly one of N
resolved recipients the other N−1 deliveries are attempted and the batch
completes fails on the code: encoding is not per-recipient at all — the
single pre-loop derivation always fails (out-of-scope `participant`), so
with two recipients and an encoder that would fail on the first
recipient's token, zero delivery attempts are made (not N−1 = 1) and the
batch aborts on an uncaught TypeError instead of completing. -/
theorem batch_encoding_failure_not_isolated :
    batchRun "from@hades.io" idHtml
        (fun _ => Except.ok ⟨[⟨"c@x.com"⟩, ⟨"d@x.com"⟩]⟩)
        (fun t => if t = deriveToken "c@x.com" "Fest" then
            Except.error "encode failed"
          else Except.ok ("data:image/png;base64," ++ t))
        okSend
        ⟨"Fest", "subj", "body", SendTo.absent, Gender.male, false, 1, none,
          "tok"⟩
        = [Ev.respondBatchSuccess 2, Ev.uncaughtTypeError] ∧
      sendCallsOf (batchRun "from@hades.io" idHtml
        (fun _ => Except.ok ⟨[⟨"c@x.com"⟩, ⟨"d@x.com"⟩]⟩)
        (fun t => if t = deriveToken "c@x.com" "Fest" then
            Except.error "encode failed"
          else Except.ok ("data:image/png;base64," ++ t))
        okSend
        ⟨"Fest", "subj", "body", SendTo.absent, Gender.male, false, 1, none,
          "tok"⟩) = [] := by
  constructor <;> rfl

/-- C4: for every successful non-empty resolution the success response
carrying the resolved recipient count is the first observable event — it
precedes any delivery attempt — and the responses the caller sees are
identical whatever the rendering, encoding and delivery oracles do:
reported success depends only on the resolution result. -/
theorem success_reported_before_delivery (fromEmail fromEmail' : String)
    (makeHtml makeHtml' : String → String)
    (upstream : UpstreamQuery → Except String Registry)
    (qrEnc qrEnc' : String → Except String String)
    (send send' : Msg → Except String Unit) (r : BatchRequest)
    (reg : Registry)
    (h : upstream (batchQuery r) = Except.ok reg) (hne : reg.rs ≠ []) :
    (∃ rest, batchRun fromEmail makeHtml upstream qrEnc send r
        = Ev.respondBatchSuccess reg.rs.length :: rest) ∧
      responsesOf (batchRun fromEmail makeHtml upstream qrEnc send r)
        = responsesOf (batchRun fromEmail' makeHtml' upstream qrEnc' send' r)
      := by
  have h1 := batchRun_resolved_nonempty fromEmail makeHtml upstream qrEnc
    send r reg h hne
  have h2 := batchRun_resolved_nonempty fromEmail' makeHtml' upstream qrEnc'
    send' r reg h hne
  exact ⟨⟨[Ev.uncaughtTypeError], h1⟩, by rw [h1, h2]⟩

/-- Witness for C4: a concrete audience, against two disagreeing oracle
sets. -/
theorem success_reported_before_delivery_witness :
    (∃ rest, batchRun "f@h.io" idHtml (fun _ => Except.ok regAB) okQr okSend
        reqFest
        = Ev.respondBatchSuccess regAB.rs.length :: rest) ∧
      responsesOf (batchRun "f@h.io" idHtml (fun _ => Except.ok regAB) okQr
          okSend reqFest)
        = responsesOf (batchRun "g@h.io" (fun s => s ++ s)
            (fun _ => Except.ok regAB) (fun _ => Except.error "qr down")
            (fun _ => Except.error "smtp down") reqFest) :=
  success_reported_before_delivery "f@h.io" "g@h.io" idHtml (fun s => s ++ s)
    (fun _ => Except.ok regAB) okQr (fun _ => Except.error "qr down") okSend
    (fun _ => Except.error "smtp down") reqFest regAB rfl (by decide)

/-- C5: when the registry call fails or times out the thrown error is
caught and only logged, `response` stays undefined, and the handler falls
through to the cardinality check: it responds exactly as for a
successfully resolved empty audience — the same `EmptyParticipants`
trace, indistinguishable to the caller. -/
theorem upstream_failure_treated_as_empty (fromEmail : String)
    (makeHtml : String → String)
    (upstream : UpstreamQuery → Except String Registry)
    (qrEnc : String → Except String String)
    (send : Msg → Except String Unit) (r : BatchRequest) (e : String)
    (h : upstream (batchQuery r) = Except.error e) :
    batchRun fromEmail makeHtml upstream qrEnc send r
        = [Ev.respondEmptyParticipants] ∧
      batchRun fromEmail makeHtml upstream qrEnc send r
        = batchRun fromEmail makeHtml (fun _ => Except.ok ⟨[]⟩) qrEnc send r
      := by
  constructor
  · simp [batchRun, h]
  · simp [batchRun, h]

/-- Witness for C5: a concrete timed-out registry call. -/
theorem upstream_failure_treated_as_empty_witness :
    batchRun "f@h.io" idHtml (fun _ => Except.error "timeout of 1000ms")
        okQr okSend reqFest
        = [Ev.respondEmptyParticipants] ∧
      batchRun "f@h.io" idHtml (fun _ => Except.error "timeout of 1000ms")
          okQr okSend reqFest
        = batchRun "f@h.io" idHtml (fun _ => Except.ok ⟨[]⟩) okQr okSend
            reqFest :=
  upstream_failure_treated_as_empty "f@h.io" idHtml
    (fun _ => Except.error "timeout of 1000ms") okQr okSend reqFest
    "timeout of 1000ms" rfl

/-- C6: whenever resolution yields no list or a list with zero entries,
the whole request terminates with the `EmptyParticipants` response, and
no token derivation, credential encoding, message composition or delivery
attempt occurs. -/
theorem empty_resolution_terminal (fromEmail : String)
    (makeHtml : String → String)
    (upstream : UpstreamQuery → Except String Registry)
    (qrEnc : String → Except String String)
    (send : Msg → Except String Unit) (r : BatchRequest)
    (h : ∀ reg, upstream (batchQuery r) = Except.ok reg → reg.rs = []) :
    batchRun fromEmail makeHtml upstream qrEnc send r
        = [Ev.respondEmptyParticipants] ∧
      qrInputsOf (batchRun fromEmail makeHtml upstream qrEnc send r) = [] ∧
      sendCallsOf (batchRun fromEmail makeHtml upstream qrEnc send r) = []
      := by
  have hr : batchRun fromEmail makeHtml upstream qrEnc send r
      = [Ev.respondEmptyParticipants] := by
    cases hu : upstream (batchQuery r) with
    | ok reg =>
        have hrs := h reg hu
        simp [batchRun, hu, hrs]
    | error e => simp [batchRun, hu]
  exact ⟨hr, by rw [hr]; rfl, by rw [hr]; rfl⟩

/-- Witness for C6: a registry resolving to zero participants. -/
theorem empty_resolution_terminal_witness :
    batchRun "f@h.io" idHtml (fun _ => Except.ok ⟨[]⟩) okQr okSend reqFest
        = [Ev.respondEmptyParticipants] ∧
      qrInputsOf (batchRun "f@h.io" idHtml (fun _ => Except.ok ⟨[]⟩) okQr
        okSend reqFest) = [] ∧
      sendCallsOf (batchRun "f@h.io" idHtml (fun _ => Except.ok ⟨[]⟩) okQr
        okSend reqFest) = [] :=
  empty_resolution_terminal "f@h.io" idHtml (fun _ => Except.ok ⟨[]⟩) okQr
    okSend reqFest (fun reg hreg => by cases hreg; rfl)

/-- C7: two batch requests identical in every field except that one has
`sendTo = absent` and the other `sendTo = present` issue the very same
upstream call: both route to the `simple-projection/project-absent`
variant with identical event, day, gender query, narrowing query and
authorization. -/
theorem absent_present_same_upstream_query (r : BatchRequest) :
    batchQuery { r with sendTo := SendTo.absent }
      = batchQuery { r with sendTo := SendTo.present } := rfl

/-- C8 counterexample: a validated direct request on which QR encoding
fails. The catch at app.js:319-321 only logs, `code` stays undefined, and
`code.replace` at app.js:330 throws an uncaught TypeError: the dispatch
aborts before any delivery call, but no outcome whatsoever — in
particular no `CredentialEncodingFailed` — is reported to the caller,
refuting the claim that every validated direct dispatch reports exactly
one of three outcomes synchronously. -/
theorem direct_encoding_failure_reports_nothing :
    responsesOf (directRun (fun _ => true) "from@hades.io" idHtml
        (fun _ => Except.error "encoder down") okSend reqDirect) = [] ∧
      sendCallsOf (directRun (fun _ => true) "from@hades.io" idHtml
        (fun _ => Except.error "encoder down") okSend reqDirect) = [] := by
  constructor <;> rfl

/-- C8 (amended): for every direct-send request that passes validation,
if QR encoding succeeds the dispatch reports exactly one outcome
synchronously — plain success when delivery succeeds, `MailNotSent`
carrying the provider's error detail when it fails; if QR encoding fails
the dispatch aborts before any delivery call with an uncaught TypeError
and reports no outcome to the caller at all. -/
theorem direct_dispatch_outcomes (isEmail : String → Bool)
    (fromEmail : String) (makeHtml : String → String)
    (qrEnc : String → Except String String)
    (send : Msg → Except String Unit) (r : DirectRequest)
    (hval : directValidationErrors isEmail r = []) :
    (∀ code, qrEnc (deriveToken r.customEmail r.eventName)
        = Except.ok code →
      responsesOf (directRun isEmail fromEmail makeHtml qrEnc send r)
        = (match send ⟨r.customEmail, fromEmail, r.mailSubject,
              renderBody makeHtml r.isMarkdown r.mailBody,
              [qrAttachment code]⟩ with
          | Except.ok _ => [Ev.respondDirectSuccess]
          | Except.error e => [Ev.respondMailNotSent e])) ∧
    (∀ e, qrEnc (deriveToken r.customEmail r.eventName)
        = Except.error e →
      responsesOf (directRun isEmail fromEmail makeHtml qrEnc send r) = [] ∧
      sendCallsOf (directRun isEmail fromEmail makeHtml qrEnc send r) = [] ∧
      (directRun isEmail fromEmail makeHtml qrEnc send r).getLast?
        = some Ev.uncaughtTypeError) := by
  constructor
  · intro code hq
    rw [directRun_valid isEmail fromEmail makeHtml qrEnc send r hval, hq]
    cases hs : send ⟨r.customEmail, fromEmail, r.mailSubject,
        renderBody makeHtml r.isMarkdown r.mailBody, [qrAttachment code]⟩ with
    | ok u => simp [responsesOf, hs, Ev.isRespond]
    | error e => simp [responsesOf, hs, Ev.isRespond]
  · intro e hq
    have hr : directRun isEmail fromEmail makeHtml qrEnc send r
        = [Ev.qrEncodeCall (deriveToken r.customEmail r.eventName),
            Ev.uncaughtTypeError] := by
      rw [directRun_valid isEmail fromEmail makeHtml qrEnc send r hval, hq]
    exact ⟨by rw [hr]; rfl, by rw [hr]; rfl, by rw [hr]; rfl⟩

/-- Witness for C8: a concrete validated request whose encoding fails. -/
theorem direct_dispatch_outcomes_witness :
    responsesOf (directRun (fun _ => true) "from@hades.io" idHtml
        (fun _ => Except.error "enc down") okSend reqDirect) = [] ∧
      sendCallsOf (directRun (fun _ => true) "from@hades.io" idHtml
        (fun _ => Except.error "enc down") okSend reqDirect) = [] ∧
      (directRun (fun _ => true) "from@hades.io" idHtml
        (fun _ => Except.error "enc down") okSend reqDirect).getLast?
        = some Ev.uncaughtTypeError :=
  (direct_dispatch_outcomes (fun _ => true) "from@hades.io" idHtml
      (fun _ => Except.error "enc down") okSend reqDirect (by decide)).2
    "enc down" rfl

/-- C9: a direct-send request whose target address fails the syntactic
email validation is rejected with the structured field-level error
response naming `customEmail`, and neither the token deriver, the QR
encoder nor the delivery provider is ever invoked. -/
theorem invalid_address_rejected_at_validation (isEmail : String → Bool)
    (fromEmail : String) (makeHtml : String → String)
    (qrEnc : String → Except String String)
    (send : Msg → Except String Unit) (r : DirectRequest)
    (h : isEmail r.customEmail = false) :
    directRun isEmail fromEmail makeHtml qrEnc send r
        = [Ev.respondValidationFailed (directValidationErrors isEmail r)] ∧
      "customEmail" ∈ directValidationErrors isEmail r ∧
      qrInputsOf (directRun isEmail fromEmail makeHtml qrEnc send r) = [] ∧
      sendCallsOf (directRun isEmail fromEmail makeHtml qrEnc send r) = []
      := by
  have hmem : "customEmail" ∈ directValidationErrors isEmail r := by
    simp [directValidationErrors, h]
  have hne : directValidationErrors isEmail r ≠ [] :=
    List.ne_nil_of_mem hmem
  have hr : directRun isEmail fromEmail makeHtml qrEnc send r
      = [Ev.respondValidationFailed (directValidationErrors isEmail r)] := by
    simp [directRun, hne]
  exact ⟨hr, hmem, by rw [hr]; rfl, by rw [hr]; rfl⟩

/-- Witness for C9: a concrete syntactically invalid address. -/
theorem invalid_address_rejected_at_validation_witness :
    directRun (fun s => s.toList.contains '@') "from@hades.io" idHtml okQr okSend
        ⟨"Fest", "subj", "body", false, "not-an-email"⟩
        = [Ev.respondValidationFailed (directValidationErrors
            (fun s => s.toList.contains '@')
            ⟨"Fest", "subj", "body", false, "not-an-email"⟩)] ∧
      "customEmail" ∈ directValidationErrors (fun s => s.toList.contains '@')
        ⟨"Fest", "subj", "body", false, "not-an-email"⟩ ∧
      qrInputsOf (directRun (fun s => s.toList.contains '@') "from@hades.io" idHtml
        okQr okSend ⟨"Fest", "subj", "body", false, "not-an-email"⟩) = [] ∧
      sendCallsOf (directRun (fun s => s.toList.contains '@') "from@hades.io"
        idHtml okQr okSend
        ⟨"Fest", "subj", "body", false, "not-an-email"⟩) = [] :=
  invalid_address_rejected_at_validation (fun s => s.toList.contains '@')
    "from@hades.io" idHtml okQr okSend
    ⟨"Fest", "subj", "body", false, "not-an-email"⟩ (by decide)

/-- C10: the token deriver is the pure function
`deriveToken = md5hex (email ++ eventName)`, identical at both call
sites (app.js:193 and app.js:318): equal (emailAddress, eventName) pairs
yield the identical token, and the token actually handed to the QR
encoder by a validated direct dispatch is exactly this value, unchanged
by any other request field or by any oracle — it depends on no other
state. -/
theorem token_deriver_deterministic (isEm isEm' : String → Bool)
    (fromEmail fromEmail' : String) (makeHtml makeHtml' : String → String)
    (qrEnc qrEnc' : String → Except String String)
    (send send' : Msg → Except String Unit) (r r' : DirectRequest)
    (he : r.customEmail = r'.customEmail) (hn : r.eventName = r'.eventName)
    (hv : directValidationErrors isEm r = [])
    (hv' : directValidationErrors isEm' r' = []) :
    deriveToken r.customEmail r.eventName
        = deriveToken r'.customEmail r'.eventName ∧
      qrInputsOf (directRun isEm fromEmail makeHtml qrEnc send r)
        = [deriveToken r.customEmail r.eventName] ∧
      qrInputsOf (directRun isEm fromEmail makeHtml qrEnc send r)
        = qrInputsOf (directRun isEm' fromEmail' makeHtml' qrEnc' send' r')
      := by
  have h1 := qrInputsOf_directRun_valid isEm fromEmail makeHtml qrEnc send
    r hv
  have h2 := qrInputsOf_directRun_valid isEm' fromEmail' makeHtml' qrEnc'
    send' r' hv'
  refine ⟨by rw [he, hn], h1, ?_⟩
  rw [h1, h2, he, hn]

/-- Witness for C10: the same recipient and event across two direct
requests differing in subject, body, markup flag and in every oracle. -/
theorem token_deriver_deterministic_witness :
    deriveToken "solo@x.com" "Fest" = deriveToken "solo@x.com" "Fest" ∧
      qrInputsOf (directRun (fun _ => true) "from@hades.io" idHtml okQr
          okSend reqDirect)
        = [deriveToken "solo@x.com" "Fest"] ∧
      qrInputsOf (directRun (fun _ => true) "from@hades.io" idHtml okQr
          okSend reqDirect)
        = qrInputsOf (directRun (fun s => s.toList.contains '@') "g@h.io"
            (fun s => s ++ s) (fun _ => Except.error "qr down")
            (fun _ => Except.error "smtp down")
            ⟨"Fest", "other subject", "other body", true, "solo@x.com"⟩) :=
  token_deriver_deterministic (fun _ => true) (fun s => s.toList.contains '@')
    "from@hades.io" "g@h.io" idHtml (fun s => s ++ s) okQr
    (fun _ => Except.error "qr down") okSend
    (fun _ => Except.error "smtp down") reqDirect
    ⟨"Fest", "other subject", "other body", true, "solo@x.com"⟩
    rfl rfl (by decide) (by decide)

end HadesMailer
